import Mathlib

/-!
Verification of the menu subsystem of the `widgets` repository
(`src/menu/Menu.ts`, `src/menu/MenuItem.ts`).

The TypeScript widgets are shallowly embedded: each event handler becomes a
Lean function from the widget's properties and internal state to the updated
state together with a list of the observable effects it performs (owner
callbacks invoked, DOM style mutations, timers scheduled).  JavaScript numbers
that only ever hold integers are modelled as `Int`; the JS `%` operator, which
truncates toward zero, is modelled by `Int.tmod`.  Optional properties are
`Option` values and the `x = default` destructuring defaults of the source are
reproduced with `Option.getD`.
-/

namespace Widgets

/-- The `Operation` const enum of `Menu.ts` (lines 60-63). -/
inductive Operation
  | decrease
  | increase
deriving DecidableEq, Repr

/-- One orientation of a menu (`Menu.ts` line 13). -/
inductive Orientation
  | horizontal
  | vertical
deriving DecidableEq, Repr

/-- The named key-code record built by `assign` from `commonKeys` plus the
orientation-specific arrow keys (`Menu.ts` lines 65-84). -/
structure KeyMap where
  ascend : Int
  decrease : Int
  descend : Int
  increase : Int
  enter : Int
  escape : Int
  space : Int
  tab : Int
deriving DecidableEq, Repr

/-- `horizontalKeys` (`Menu.ts` lines 72-77): ascend = 38 (up arrow),
decrease = 37 (left arrow), descend = 40 (down arrow), increase = 39
(right arrow), merged with `commonKeys` (enter 13, escape 27, space 32, tab 9). -/
def horizontalKeys : KeyMap :=
  { ascend := 38, decrease := 37, descend := 40, increase := 39,
    enter := 13, escape := 27, space := 32, tab := 9 }

/-- `verticalKeys` (`Menu.ts` lines 79-84): ascend = 37 (left arrow),
decrease = 38 (up arrow), descend = 39 (right arrow), increase = 40
(down arrow), merged with `commonKeys`. -/
def verticalKeys : KeyMap :=
  { ascend := 37, decrease := 38, descend := 39, increase := 40,
    enter := 13, escape := 27, space := 32, tab := 9 }

/-- `Menu.prototype.moveActiveIndex` (`Menu.ts` lines 236-244) acting on the
`_activeIndex` field.  `max` is `this.children.length` and `previousIndex` is
the current `_activeIndex`.  The source computes
`operation === Operation.decrease ? (previousIndex - 1 < 0 ? max - 1 :
previousIndex - 1) : Math.min(previousIndex + 1, max) % max`; JS `%` truncates
toward zero, hence `Int.tmod`. -/
def moveActiveIndex (max : Int) (previousIndex : Int) (operation : Operation) : Int :=
  match operation with
  | .decrease => if previousIndex - 1 < 0 then max - 1 else previousIndex - 1
  | .increase => Int.tmod (min (previousIndex + 1) max) max

/-- Helper: `moveActiveIndex` keeps the index inside `[0, max)` whenever it
starts there and `max` is positive. -/
lemma moveActiveIndex_mem (max i : Int) (op : Operation)
    (hmax : 1 ≤ max) (h0 : 0 ≤ i) (hi : i < max) :
    0 ≤ moveActiveIndex max i op ∧ moveActiveIndex max i op < max := by
  cases op with
  | decrease =>
    simp only [moveActiveIndex]
    by_cases h : i - 1 < 0 <;> simp [h] <;> omega
  | increase =>
    simp only [moveActiveIndex]
    have hmin0 : 0 ≤ min (i + 1) max := by omega
    rw [Int.tmod_eq_emod hmin0 (by omega)]
    constructor
    · exact Int.emod_nonneg _ (by omega)
    · exact Int.emod_lt_of_pos _ (by omega)

/-- Helper: the `increase` branch evaluated below and at the wrap point. -/
lemma moveActiveIndex_increase_eq (max i : Int) (hmax : 1 ≤ max)
    (h0 : 0 ≤ i) (hi : i < max) :
    moveActiveIndex max i .increase = if i < max - 1 then i + 1 else 0 := by
  simp only [moveActiveIndex]
  by_cases h : i < max - 1
  · have hmin : min (i + 1) max = i + 1 := by omega
    rw [hmin, Int.tmod_eq_emod (by omega) (by omega), if_pos h]
    exact Int.emod_eq_of_lt (by omega) (by omega)
  · have hieq : i = max - 1 := by omega
    have hmin : min (i + 1) max = max := by omega
    rw [hmin, Int.tmod_eq_emod (by omega) (by omega), if_neg h]
    simp

/-- The role strings accepted by `MenuProperties.role` (`Menu.ts` line 15). -/
inductive MenuRole
  | menu
  | menubar
deriving DecidableEq, Repr

/-- The owner callbacks a Menu handler can invoke (`onRequestShow`,
`onRequestHide` in `MenuProperties`, `Menu.ts` lines 49-50). -/
inductive CallbackCall
  | requestShow
  | requestHide
deriving DecidableEq, Repr

/-- The slice of `MenuProperties` (`Menu.ts` lines 37-53) read by the embedded
handlers.  Optional callbacks are modelled by their presence (`Bool`); `label`
is likewise modelled by whether a label node was supplied. -/
structure MenuProps where
  disabled : Option Bool := none
  expandOnClick : Option Bool := none
  hideDelay : Option Nat := none
  hidden : Option Bool := none
  label : Bool := false
  onRequestHide : Bool := false
  onRequestShow : Bool := false
  orientation : Option Orientation := none
  role : Option MenuRole := none
deriving DecidableEq, Repr

/-- The mutable per-instance state of a `Menu`: `_activeIndex`,
`this.state.active` (from the Stateful mixin) and `_isLabelActive`
(`Menu.ts` lines 90-96, 313-315). -/
structure MenuState where
  activeIndex : Int := 0
  stateActive : Bool := false
  isLabelActive : Bool := false
deriving DecidableEq, Repr

/-- `Menu.prototype.getDefaultHidden` (`Menu.ts` lines 197-199): hidden
defaults to `true` exactly when a `label` is present. -/
def getDefaultHidden (p : MenuProps) : Bool :=
  p.label

/-- `Menu.prototype.getDefaultOrientation` (`Menu.ts` lines 201-204):
`menubar` menus default to horizontal, all others to vertical. -/
def getDefaultOrientation (p : MenuProps) : Orientation :=
  if p.role.getD .menu = .menubar then .horizontal else .vertical

/-- The key map an orientation selects (`Menu.ts` lines 299, 332). -/
def orientationKeys (o : Orientation) : KeyMap :=
  if o = .horizontal then horizontalKeys else verticalKeys

/-- The key map a Menu's handlers use: its `orientation` property defaulted by
`getDefaultOrientation` (`Menu.ts` lines 298-299, 331-332). -/
def menuKeys (p : MenuProps) : KeyMap :=
  orientationKeys (p.orientation.getD (getDefaultOrientation p))

/-- `Menu.prototype.toggleDisplay` (`Menu.ts` lines 429-449).  When
`requestShow` is `undefined` it is resolved from the current `hidden`
property (an already-hidden menu toggles to showing).  Showing marks the
state active (unless `inactive` was passed) and invokes `onRequestShow` when
present; hiding clears the active state, resets `_activeIndex` to 0 and
invokes `onRequestHide` when present. -/
def toggleDisplay (p : MenuProps) (st : MenuState)
    (requestShow : Option Bool) (inactive : Bool) : MenuState × List CallbackCall :=
  let rs := requestShow.getD (p.hidden.getD (getDefaultHidden p))
  if rs then
    ({ st with stateActive := if inactive then st.stateActive else true },
      if p.onRequestShow then [.requestShow] else [])
  else
    ({ st with stateActive := false, activeIndex := 0 },
      if p.onRequestHide then [.requestHide] else [])

/-- `Menu.prototype.onLabelKeyDown` (`Menu.ts` lines 297-311): when not
disabled, Enter toggles the display and the orientation's `descend` key
force-opens (`toggleDisplay(true)`); every other key is ignored. -/
def onLabelKeyDown (p : MenuProps) (st : MenuState) (keyCode : Int) :
    MenuState × List CallbackCall :=
  let keys := menuKeys p
  if p.disabled.getD false then (st, [])
  else if keyCode = keys.enter then toggleDisplay p st none false
  else if keyCode = keys.descend then toggleDisplay p st (some true) false
  else (st, [])

/-- The branch `Menu.prototype.onMenuKeyDown` (`Menu.ts` lines 330-365)
selects for a key code. -/
inductive MenuKeyAction
  | activateItem
  | clearActive
  | exitParent
  | move (operation : Operation)
  | escapeClose
  | unhandled
deriving DecidableEq, Repr

/-- The dispatch of `Menu.prototype.onMenuKeyDown` (`Menu.ts` lines 330-365):
space activates the item, tab clears the active state, the orientation's
`ascend` key exits to the parent menu (`exitMenu`), `decrease`/`increase`
move the active index, and escape closes the menu only when a `label`
exists. -/
def onMenuKeyDownAction (p : MenuProps) (keyCode : Int) : MenuKeyAction :=
  let keys := menuKeys p
  if keyCode = keys.space then .activateItem
  else if keyCode = keys.tab then .clearActive
  else if keyCode = keys.ascend then .exitParent
  else if keyCode = keys.decrease then .move .decrease
  else if keyCode = keys.increase then .move .increase
  else if keyCode = keys.escape then (if p.label then .escapeClose else .unhandled)
  else .unhandled

/-- C1: for every child count `n ≥ 1` and active index `i ∈ [0, n)`,
`moveActiveIndex` with `Operation.decrease` yields `i - 1` when `i > 0` and
`n - 1` when `i = 0`, and with `Operation.increase` yields `i + 1` when
`i < n - 1` and `0` when `i = n - 1` — wraparound at both ends. -/
theorem menu_moveActiveIndex_wraparound (n i : Int)
    (hn : 1 ≤ n) (h0 : 0 ≤ i) (hi : i < n) :
    (moveActiveIndex n i .decrease = if 0 < i then i - 1 else n - 1) ∧
    (moveActiveIndex n i .increase = if i < n - 1 then i + 1 else 0) := by
  constructor
  · simp only [moveActiveIndex]
    by_cases h : 0 < i
    · rw [if_neg (by omega), if_pos h]
    · rw [if_pos (by omega), if_neg h]
  · exact moveActiveIndex_increase_eq n i hn h0 hi

/-- Witness for C1: a menu of three children, starting at index 0: `decrease`
wraps to 2 and `increase` moves to 1. -/
theorem menu_moveActiveIndex_wraparound_witness :
    moveActiveIndex 3 0 .decrease = 2 ∧ moveActiveIndex 3 0 .increase = 1 := by
  have h := menu_moveActiveIndex_wraparound 3 0 (by decide) (by decide) (by decide)
  exact ⟨by rw [h.1]; decide, by rw [h.2]; decide⟩

/-- A labelled submenu's property set with a given orientation, used to
exercise the label/menu keydown handlers. -/
def labelProps (o : Orientation) (hidden : Option Bool) : MenuProps :=
  { orientation := some o, hidden := hidden, label := true,
    onRequestShow := true, onRequestHide := true }

/-- C3, counterexample: the claim assigns descend = 40 (Down) to vertical
menus and descend = 39 (Right) to horizontal ones, and ascend = 37 (Left) to
horizontal and 38 (Up) to vertical — but the source's key maps are exactly
the other way around. -/
theorem menu_descend_ascend_keys_claim_false :
    ¬ (verticalKeys.descend = 40 ∧ horizontalKeys.descend = 39 ∧
       horizontalKeys.ascend = 37 ∧ verticalKeys.ascend = 38) := by
  decide

/-- C3, amended: the descend key is Down (40) for horizontal menus and Right
(39) for vertical menus, and the ascend key is Up (38) for horizontal menus
and Left (37) for vertical menus; pressing the orientation's descend key on a
non-disabled label force-opens the submenu (emits `onRequestShow`), and the
orientation's ascend key dispatches to `exitMenu` (exit into the parent). -/
theorem menu_descend_ascend_keys :
    horizontalKeys.descend = 40 ∧ verticalKeys.descend = 39 ∧
    horizontalKeys.ascend = 38 ∧ verticalKeys.ascend = 37 ∧
    (∀ (o : Orientation) (st : MenuState) (hidden : Option Bool),
      (onLabelKeyDown (labelProps o hidden) st (orientationKeys o).descend).2 =
        [CallbackCall.requestShow]) ∧
    (∀ (o : Orientation) (hidden : Option Bool),
      onMenuKeyDownAction (labelProps o hidden) (orientationKeys o).ascend =
        .exitParent) := by
  refine ⟨rfl, rfl, rfl, rfl, ?_, ?_⟩
  · intro o st hidden
    cases o <;>
      simp [onLabelKeyDown, toggleDisplay, labelProps, menuKeys, orientationKeys,
        getDefaultOrientation, horizontalKeys, verticalKeys]
  · intro o hidden
    cases o <;>
      simp [onMenuKeyDownAction, labelProps, menuKeys, orientationKeys,
        getDefaultOrientation, horizontalKeys, verticalKeys]

/-- C5: whenever `toggleDisplay` resolves to opening it invokes
`onRequestShow` exactly when that callback is present, and whenever it
resolves to closing it invokes `onRequestHide` exactly when present and
resets `_activeIndex` to 0; a missing callback makes the call list empty
(no-op). -/
theorem menu_toggleDisplay_spec (p : MenuProps) (st : MenuState)
    (req : Option Bool) (inactive : Bool) :
    (req.getD (p.hidden.getD (getDefaultHidden p)) = true →
      (toggleDisplay p st req inactive).2 =
        (if p.onRequestShow then [CallbackCall.requestShow] else [])) ∧
    (req.getD (p.hidden.getD (getDefaultHidden p)) = false →
      (toggleDisplay p st req inactive).1.activeIndex = 0 ∧
      (toggleDisplay p st req inactive).2 =
        (if p.onRequestHide then [CallbackCall.requestHide] else [])) := by
  constructor
  · intro h
    simp [toggleDisplay, h]
  · intro h
    simp [toggleDisplay, h]

/-- Witness for C5: an explicit open request on a menu with both callbacks
emits `onRequestShow`; an explicit close request on a menu with a missing
hide callback emits nothing and resets the active index to 0. -/
theorem menu_toggleDisplay_spec_witness :
    (toggleDisplay (labelProps .vertical none) { activeIndex := 2 }
        (some true) false).2 = [CallbackCall.requestShow] ∧
    (toggleDisplay { } { activeIndex := 2 } (some false) false).1.activeIndex = 0 ∧
    (toggleDisplay { } { activeIndex := 2 } (some false) false).2 = [] := by
  refine ⟨?_, ?_, ?_⟩
  · have h := menu_toggleDisplay_spec (labelProps .vertical none)
      { activeIndex := 2 } (some true) false
    rw [h.1 rfl]
    decide
  · exact (menu_toggleDisplay_spec { } { activeIndex := 2 } (some false) false).2 rfl |>.1
  · have h := menu_toggleDisplay_spec { } { activeIndex := 2 } (some false) false
    rw [(h.2 rfl).2]
    decide

/-- A DOM element as seen by `Menu.prototype.onMenuMouseDown`: only its
`data-dojo-index` attribute matters (`none` models a missing attribute). -/
structure DomNode where
  dataDojoIndex : Option String := none
deriving DecidableEq, Repr

/-- The accumulation of JS `parseInt` over a digit string. -/
def parseIntDigits (cs : List Char) : Nat :=
  cs.foldl (fun a c => a * 10 + (c.toNat - Char.toNat '0')) 0

/-- JS `parseInt(s, 10)`: skip leading whitespace, read an optional sign,
then the longest digit prefix; `none` models `NaN` (no digits found). -/
def parseIntStr (s : String) : Option Int :=
  let cs := s.data.dropWhile Char.isWhitespace
  match cs with
  | '-' :: rest =>
    let ds := rest.takeWhile Char.isDigit
    if ds.isEmpty then none else some (-(parseIntDigits ds : Int))
  | '+' :: rest =>
    let ds := rest.takeWhile Char.isDigit
    if ds.isEmpty then none else some ((parseIntDigits ds : Int))
  | _ =>
    let ds := cs.takeWhile Char.isDigit
    if ds.isEmpty then none else some ((parseIntDigits ds : Int))

/-- The `while` walk of `onMenuMouseDown` (`Menu.ts` lines 368-371): starting
from the event target, climb to the parent while the current node lacks a
`data-dojo-index` attribute; the walk stops at the first node carrying the
attribute or at the root (last ancestor). -/
def findIndexNode : List DomNode → Option DomNode
  | [] => none
  | [node] => some node
  | node :: next :: rest =>
    if node.dataDojoIndex.isSome then some node
    else findIndexNode (next :: rest)

/-- `Menu.prototype.onMenuMouseDown` (`Menu.ts` lines 367-377): resolve the
nearest ancestor's `data-dojo-index` (an absent attribute reads as `''` via
`getAttribute(...) || ''`), parse it, and set `_activeIndex` unless the parse
produced `NaN`. -/
def onMenuMouseDown (st : MenuState) (chain : List DomNode) : MenuState :=
  match findIndexNode chain with
  | none => st
  | some node =>
    match parseIntStr (node.dataDojoIndex.getD "") with
    | none => st
    | some i => { st with activeIndex := i }

/-- The operations of a Menu that touch `_activeIndex`: arrow-key moves
(`moveActiveIndex`), mousedown index resolution (`onMenuMouseDown`), and a
close resolved by `toggleDisplay` (which resets the index to 0). -/
inductive MenuOp
  | arrowMove (operation : Operation)
  | mousedown (chain : List DomNode)
  | close
deriving DecidableEq, Repr

/-- One Menu operation applied to the state; `n` is `this.children.length`. -/
def menuOpStep (p : MenuProps) (n : Int) (st : MenuState) : MenuOp → MenuState
  | .arrowMove op => { st with activeIndex := moveActiveIndex n st.activeIndex op }
  | .mousedown chain => onMenuMouseDown st chain
  | .close => (toggleDisplay p st (some false) false).1

/-- A sequence of Menu operations applied in order. -/
def runMenuOps (p : MenuProps) (n : Int) (st : MenuState) (ops : List MenuOp) : MenuState :=
  ops.foldl (menuOpStep p n) st

/-- Every `data-dojo-index` marker in the chain that parses at all parses to
an index in `[0, n)` — which is how the renderer writes them: each child gets
its own position `i < childCount` as its marker (spec section 6). -/
def chainIndexOk (n : Int) (chain : List DomNode) : Bool :=
  chain.all fun node =>
    match node.dataDojoIndex with
    | none => true
    | some s =>
      match parseIntStr s with
      | none => true
      | some i => decide (0 ≤ i) && decide (i < n)

/-- An operation is well-formed when any mousedown chain it carries has only
in-range markers. -/
def menuOpOk (n : Int) : MenuOp → Bool
  | .mousedown chain => chainIndexOk n chain
  | _ => true

/-- Helper: the node `findIndexNode` resolves to belongs to the chain. -/
lemma findIndexNode_mem (chain : List DomNode) (node : DomNode)
    (h : findIndexNode chain = some node) : node ∈ chain := by
  induction chain with
  | nil => simp [findIndexNode] at h
  | cons a rest ih =>
    cases rest with
    | nil =>
      simp only [findIndexNode, Option.some.injEq] at h
      simp [h]
    | cons b rest2 =>
      simp only [findIndexNode] at h
      by_cases ha : a.dataDojoIndex.isSome
      · rw [if_pos ha] at h
        simp only [Option.some.injEq] at h
        simp [h]
      · rw [if_neg ha] at h
        exact List.mem_cons_of_mem a (ih h)

/-- Helper: one well-formed operation keeps `_activeIndex` inside `[0, n)`. -/
lemma menuOpStep_in_range (p : MenuProps) (n : Int) (st : MenuState) (op : MenuOp)
    (hn : 1 ≤ n) (h : 0 ≤ st.activeIndex ∧ st.activeIndex < n)
    (hop : menuOpOk n op = true) :
    0 ≤ (menuOpStep p n st op).activeIndex ∧ (menuOpStep p n st op).activeIndex < n := by
  cases op with
  | arrowMove o =>
    exact moveActiveIndex_mem n st.activeIndex o hn h.1 h.2
  | mousedown chain =>
    simp only [menuOpStep, onMenuMouseDown]
    cases hfind : findIndexNode chain with
    | none => exact h
    | some node =>
      have hmem : node ∈ chain := findIndexNode_mem chain node hfind
      cases hattr : node.dataDojoIndex with
      | none => simpa [hattr, parseIntStr, parseIntDigits] using h
      | some s =>
        cases hparse : parseIntStr s with
        | none => simpa [hattr, hparse] using h
        | some i =>
          simp only [hattr, Option.getD_some, hparse]
          have hall := List.all_eq_true.mp hop node hmem
          simp only [hattr, hparse, Bool.and_eq_true, decide_eq_true_eq] at hall
          exact hall
  | close =>
    simp [menuOpStep, toggleDisplay]
    omega

/-- C4: for every sequence of well-formed Menu operations over a positive
child count `n` — arrow-key moves, mousedown index resolutions whose markers
are the renderer's child positions, and closes — the resulting `_activeIndex`
stays in `[0, n)`. -/
theorem menu_activeIndex_in_range (p : MenuProps) (n : Int) (ops : List MenuOp)
    (st : MenuState) (hn : 1 ≤ n)
    (hst : 0 ≤ st.activeIndex ∧ st.activeIndex < n)
    (hops : ops.all (menuOpOk n) = true) :
    0 ≤ (runMenuOps p n st ops).activeIndex ∧
      (runMenuOps p n st ops).activeIndex < n := by
  induction ops generalizing st with
  | nil => simpa [runMenuOps] using hst
  | cons op rest ih =>
    simp only [List.all_cons, Bool.and_eq_true] at hops
    simp only [runMenuOps, List.foldl_cons]
    exact ih (menuOpStep p n st op) (menuOpStep_in_range p n st op hn hst hops.1) hops.2

/-- A sample operation sequence: move right, click the marker of child 1,
close, then move left (wrapping to the last child). -/
def demoMenuOps : List MenuOp :=
  [ .arrowMove .increase,
    .mousedown [ { dataDojoIndex := some "1" } ],
    .close,
    .arrowMove .decrease ]

/-- Witness for C4: the sample sequence over two children, started at index 0,
ends inside `[0, 2)`. -/
theorem menu_activeIndex_in_range_witness :
    0 ≤ (runMenuOps { } 2 { } demoMenuOps).activeIndex ∧
      (runMenuOps { } 2 { } demoMenuOps).activeIndex < 2 :=
  menu_activeIndex_in_range { } 2 demoMenuOps { } (by decide) (by decide) (by decide)

/-- The inline style slots `Menu.prototype.animate` mutates; `none` models a
removed/null style value. -/
structure ElementStyle where
  height : Option String := none
  transition : Option String := none
deriving DecidableEq, Repr

/-- The DOM element the animation helper works on.  `maxHeight` is the
`parseInt` of the computed `max-height`; `none` models `NaN` (unparsable),
which `getMenuHeight` treats as infinite. -/
structure MenuElement where
  style : ElementStyle := { }
  scrollTop : Int := 0
  scrollHeight : Int := 0
  maxHeight : Option Int := none
deriving DecidableEq, Repr

/-- `getMenuHeight` (`Menu.ts` lines 55-58): the scroll height clamped to the
authored max-height, with an unparsable max-height treated as `Infinity`
(`Math.min(x, Infinity) = x`). -/
def getMenuHeight (el : MenuElement) : Int :=
  match el.maxHeight with
  | none => el.scrollHeight
  | some m => min el.scrollHeight m

/-- One DOM mutation performed inside the animation frames of
`Menu.prototype.animate`. -/
inductive StyleMutation
  | setTransition (value : Option String)
  | setHeight (value : String)
  | setScrollTop (value : Int)
deriving DecidableEq, Repr

/-- Apply one style mutation to the element. -/
def applyMutation (el : MenuElement) : StyleMutation → MenuElement
  | .setTransition v => { el with style := { el.style with transition := v } }
  | .setHeight v => { el with style := { el.style with height := some v } }
  | .setScrollTop v => { el with scrollTop := v }

/-- The sequence of height/transition mutations `Menu.prototype.animate`
(`Menu.ts` lines 157-186) performs.  The early return fires when
`this.wasOpen !== hidden`, i.e. exactly when the requested direction
(`!hidden` = visible) already matches the last known open flag.  Closing
temporarily nulls the transition, pins the measured height, restores the
transition and then animates the height to `'0'`; opening resets the scroll
position and pins the measured height. -/
def animateMutations (wasOpen hidden : Bool) (el : MenuElement) : List StyleMutation :=
  if wasOpen ≠ hidden then []
  else
    let height := getMenuHeight el
    if hidden then
      [ .setTransition none,
        .setHeight (toString height ++ "px"),
        .setTransition el.style.transition,
        .setHeight "0" ]
    else
      [ .setScrollTop 0,
        .setHeight (toString height ++ "px") ]

/-- `Menu.prototype.animate` as a state transformer: it returns the updated
`wasOpen` flag together with the element after all frame callbacks ran. -/
def animate (wasOpen hidden : Bool) (el : MenuElement) : Bool × MenuElement :=
  if wasOpen ≠ hidden then (wasOpen, el)
  else (!hidden, (animateMutations wasOpen hidden el).foldl applyMutation el)

/-- C8: invoking the animation helper on an already-settled element — the
requested direction (visible = `!hidden`) equals the last known `wasOpen`
flag — performs no height or transition mutation and leaves everything
unchanged; consequently a repeated invocation with the same direction is
always a no-op, so `animate` is idempotent per direction. -/
theorem menu_animate_settled_noop (wasOpen hidden : Bool) (el : MenuElement) :
    (wasOpen = !hidden →
      animate wasOpen hidden el = (wasOpen, el) ∧
      animateMutations wasOpen hidden el = []) ∧
    animate (animate wasOpen hidden el).1 hidden (animate wasOpen hidden el).2 =
      animate wasOpen hidden el := by
  cases wasOpen <;> cases hidden <;>
    simp [animate, animateMutations, applyMutation]

/-- Witness for C8: an open (`wasOpen = true`) element asked to stay visible
(`hidden = false`) is untouched and no mutation is emitted. -/
theorem menu_animate_settled_noop_witness :
    animate true false { } = (true, { }) ∧ animateMutations true false { } = [] :=
  (menu_animate_settled_noop true false { }).1 rfl

/-- The hover-mode property set claim C9 fixes: `expandOnClick = false`,
menu not disabled, `hideDelay = 300`. -/
def hoverProps : MenuProps :=
  { expandOnClick := some false, hideDelay := some 300 }

/-- The timer-visible state of a Menu instance in hover mode.  `pending` is
the `_hideTimer` handle, recorded as `(scheduledAt, fireAt)` where
`scheduledAt` is the mouse-leave time and `fireAt = scheduledAt + hideDelay`
is when `createTimer`'s callback runs; `hides` records each
`toggleDisplay(false)` run as `(scheduledAt, firedAt)`; `shows` records each
mouse-enter `toggleDisplay(true, true)`. -/
structure TimerState where
  pending : Option (Nat × Nat) := none
  hides : List (Nat × Nat) := []
  shows : List Nat := []
deriving DecidableEq, Repr

/-- The timed events driving the hover handlers: a mouse leave or enter at
time `t` (`onMenuMouseLeave` / `onMenuMouseEnter`, `Menu.ts` lines 379-410),
or the host clock reaching time `t`, which fires a due pending timer. -/
inductive HoverEvent
  | mouseLeave (t : Nat)
  | mouseEnter (t : Nat)
  | clockTick (t : Nat)
deriving DecidableEq, Repr

/-- One hover event processed against the Menu's guards: both mouse handlers
bail when `disabled` or when `expandOnClick` (default true) holds; a leave
first destroys any pending timer, then schedules a hide after `hideDelay` ms
(default 300) or hides immediately when the delay is 0; an enter destroys any
pending timer and shows immediately; the clock fires the pending timer once
its `fireAt` time is reached. -/
def hoverStep (p : MenuProps) (ts : TimerState) : HoverEvent → TimerState
  | .mouseLeave t =>
    if !(p.disabled.getD false) && !(p.expandOnClick.getD true) then
      let delay := p.hideDelay.getD 300
      if delay ≠ 0 then
        { ts with pending := some (t, t + delay) }
      else
        { ts with pending := none, hides := ts.hides ++ [(t, t)] }
    else ts
  | .mouseEnter t =>
    if !(p.disabled.getD false) && !(p.expandOnClick.getD true) then
      { ts with pending := none, shows := ts.shows ++ [t] }
    else ts
  | .clockTick t =>
    match ts.pending with
    | some sf =>
      if sf.2 ≤ t then { ts with pending := none, hides := ts.hides ++ [(sf.1, t)] }
      else ts
    | none => ts

/-- A trace of hover events processed in order from the initial state. -/
def runHover (p : MenuProps) (evs : List HoverEvent) : TimerState :=
  evs.foldl (hoverStep p) { }

/-- The inductive invariant of the hover model: every pending timer fires
exactly `hideDelay` after the leave that scheduled it, and every recorded
hide fired at least `hideDelay` after its scheduling leave. -/
def hoverInv (delay : Nat) (ts : TimerState) : Prop :=
  (∀ s f, ts.pending = some (s, f) → f = s + delay) ∧
  (∀ pr ∈ ts.hides, pr.1 + delay ≤ pr.2)

/-- Helper: `onMenuMouseLeave` under `hoverProps` schedules a hide 300 ms
out, replacing any pending timer and leaving the hide record untouched. -/
lemma hoverStep_mouseLeave (ts : TimerState) (t : Nat) :
    hoverStep hoverProps ts (.mouseLeave t) =
      { ts with pending := some (t, t + 300) } := by
  simp [hoverStep, hoverProps]

/-- Helper: `onMenuMouseEnter` under `hoverProps` destroys the pending timer,
records the show, and never records a hide. -/
lemma hoverStep_mouseEnter (ts : TimerState) (t : Nat) :
    hoverStep hoverProps ts (.mouseEnter t) =
      { ts with pending := none, shows := ts.shows ++ [t] } := by
  simp [hoverStep, hoverProps]

/-- Helper: every hover event preserves the invariant under `hoverProps`. -/
lemma hoverStep_preserves_inv (ts : TimerState) (ev : HoverEvent)
    (h : hoverInv 300 ts) : hoverInv 300 (hoverStep hoverProps ts ev) := by
  obtain ⟨hp, hh⟩ := h
  cases ev with
  | mouseLeave t =>
    rw [hoverStep_mouseLeave]
    refine ⟨?_, ?_⟩
    · intro s f hsf
      simp only [Option.some.injEq, Prod.mk.injEq] at hsf
      omega
    · intro pr hpr
      exact hh pr hpr
  | mouseEnter t =>
    rw [hoverStep_mouseEnter]
    refine ⟨?_, ?_⟩
    · intro s f hsf
      simp at hsf
    · intro pr hpr
      exact hh pr hpr
  | clockTick t =>
    simp only [hoverStep]
    split
    next sf hpend =>
      split
      next hdue =>
        refine ⟨?_, ?_⟩
        · intro s f hsf
          simp at hsf
        · intro pr hpr
          simp only [List.mem_append, List.mem_singleton] at hpr
          rcases hpr with hpr | hpr
          · exact hh pr hpr
          · have hf := hp sf.1 sf.2 (by rw [hpend])
            subst hpr
            show sf.1 + 300 ≤ t
            omega
      next hdue => exact ⟨hp, hh⟩
    next => exact ⟨hp, hh⟩

/-- Helper: the invariant is preserved by folding any event list. -/
lemma foldHover_inv (evs : List HoverEvent) (ts : TimerState)
    (h : hoverInv 300 ts) : hoverInv 300 (evs.foldl (hoverStep hoverProps) ts) := by
  induction evs generalizing ts with
  | nil => exact h
  | cons ev rest ih =>
    rw [List.foldl_cons]
    exact ih (hoverStep hoverProps ts ev) (hoverStep_preserves_inv ts ev h)

/-- Helper: the invariant holds along any trace under `hoverProps`. -/
lemma runHover_inv (evs : List HoverEvent) : hoverInv 300 (runHover hoverProps evs) := by
  refine foldHover_inv evs { } ⟨?_, ?_⟩
  · intro s f h
    simp at h
  · intro pr hpr
    simp at hpr

/-- C9: in hover mode (`expandOnClick = false`, not disabled, `hideDelay =
300`): (1) along any event trace, every hide the timer ran fired at least
300 ms after the mouse-leave that scheduled it — a hide request never fires
early; (2) a mouse-enter always cancels the pending timer and never itself
records a hide, so an enter arriving before the timer is due prevents that
timer's hide from ever firing; (3) a new mouse-leave cancels and replaces any
prior pending timer with one scheduled from the new leave; (4) the clock
never fires a pending timer before its due time. -/
theorem menu_hover_hideDelay_spec :
    (∀ (evs : List HoverEvent) (pr : Nat × Nat),
      pr ∈ (runHover hoverProps evs).hides → pr.1 + 300 ≤ pr.2) ∧
    (∀ (ts : TimerState) (t : Nat),
      (hoverStep hoverProps ts (.mouseEnter t)).pending = none ∧
      (hoverStep hoverProps ts (.mouseEnter t)).hides = ts.hides) ∧
    (∀ (ts : TimerState) (t : Nat),
      (hoverStep hoverProps ts (.mouseLeave t)).pending = some (t, t + 300)) ∧
    (∀ (ts : TimerState) (s f t : Nat),
      ts.pending = some (s, f) → t < f →
      hoverStep hoverProps ts (.clockTick t) = ts) := by
  refine ⟨?_, ?_, ?_, ?_⟩
  · intro evs pr hpr
    exact (runHover_inv evs).2 pr hpr
  · intro ts t
    rw [hoverStep_mouseEnter]
    exact ⟨rfl, rfl⟩
  · intro ts t
    rw [hoverStep_mouseLeave]
  · intro ts s f t hpend hlt
    simp only [hoverStep]
    split
    next sf hsf =>
      rw [hpend] at hsf
      injection hsf with hsf
      subst hsf
      rw [if_neg (by omega)]
    next => rfl

/-- Witness for C9: a leave at 0 followed by the clock reaching 300 records
one hide, and it fired no earlier than 300 ms after the leave; an enter at 5
cancels a timer pending since 0; the clock at 200 does not fire a timer due
at 300. -/
theorem menu_hover_hideDelay_spec_witness :
    (0 + 300 ≤ 300) ∧
    (hoverStep hoverProps { pending := some (0, 300) } (.mouseEnter 5)).pending = none ∧
    hoverStep hoverProps { pending := some (0, 300) } (.clockTick 200) =
      { pending := some (0, 300) } := by
  refine ⟨?_, ?_, ?_⟩
  · exact menu_hover_hideDelay_spec.1 [.mouseLeave 0, .clockTick 300] (0, 300) (by decide)
  · exact (menu_hover_hideDelay_spec.2.1 { pending := some (0, 300) } 5).1
  · exact menu_hover_hideDelay_spec.2.2.2 { pending := some (0, 300) } 0 300 200 rfl (by decide)

/-- The payload of a keyboard event as far as the MenuItem handlers read it. -/
structure KeyboardEvent where
  keyCode : Int := 0
deriving DecidableEq, Repr

/-- The payload of a mouse event; the MenuItem handlers never inspect it and
pass it through to the owner callback unchanged. -/
structure MouseEvent where
  detail : Int := 0
deriving DecidableEq, Repr

/-- The slice of `MenuItemProperties` (`MenuItem.ts` lines 41-54) the embedded
code reads.  The optional owner callbacks are modelled by their presence. -/
structure MenuItemProps where
  active : Option Bool := none
  controls : Option String := none
  disabled : Option Bool := none
  expanded : Option Bool := none
  hasMenu : Option Bool := none
  hasPopup : Option Bool := none
  onClick : Bool := false
  onKeydown : Bool := false
  selected : Option Bool := none
  tabIndex : Option Int := none
deriving DecidableEq, Repr

/-- The observable effects a MenuItem handler can perform: invoking the
owner's click or keydown callback with the raw event, or synthetically
clicking the event's target element. -/
inductive ItemEffect
  | clickCallback (event : MouseEvent)
  | keydownCallback (event : KeyboardEvent)
  | targetClick
deriving DecidableEq, Repr

/-- `MenuItem.prototype.onClick` (`MenuItem.ts` lines 94-99): invokes the
owner's `onClick` with the raw event only when the item is not disabled and
the callback is a function. -/
def menuItemOnClick (p : MenuItemProps) (event : MouseEvent) : List ItemEffect :=
  if !(p.disabled.getD false) && p.onClick then [.clickCallback event] else []

/-- `MenuItem.prototype.onKeydown` (`MenuItem.ts` lines 101-106): invokes the
owner's `onKeydown` with the raw event whenever the callback is a function —
the source reads only `onKeydown` from the properties and has no `disabled`
guard. -/
def menuItemOnKeydown (p : MenuItemProps) (event : KeyboardEvent) : List ItemEffect :=
  if p.onKeydown then [.keydownCallback event] else []

/-- C2, evaluated at the failing input: a disabled MenuItem with both owner
callbacks suppresses `onClick`, but its keydown handler still invokes the
owner's `onKeydown` callback — contradicting the claim, the `disabled`
property's own doc comment ("If true, then the widget will ignore events",
`MenuItem.ts` lines 16-17) and the repository's later unit tests
(`tests/unit/MenuItem.ts`, "onKeyDown — when disabled"). -/
theorem menuItem_disabled_keydown_still_invoked :
    menuItemOnClick
        { disabled := some true, onClick := true, onKeydown := true } { } = [] ∧
    menuItemOnKeydown
        { disabled := some true, onClick := true, onKeydown := true } { keyCode := 13 } =
      [.keydownCallback { keyCode := 13 }] := by
  exact ⟨rfl, rfl⟩

/-- Modelled from the spec: the later `MenuItem` revision's `onKeyDown`
handler — the one with the space-key activation — is not under `src/`; only
its unit tests are (`tests/unit/MenuItem.ts`, suites "onKeyDown" and
"space key").  Spec section 4.1: "`onKeyDown(event)`: no-op if `disabled`;
otherwise invokes the owner-supplied keydown callback; additionally, if the
key is the activate key (space), synthetically triggers a click on the
event's target element". -/
def menuItemOnKeyDownSpec (p : MenuItemProps) (event : KeyboardEvent) : List ItemEffect :=
  if p.disabled.getD false then []
  else
    (if p.onKeydown then [.keydownCallback event] else []) ++
    (if event.keyCode = 32 then [.targetClick] else [])

/-- C6: a keydown delivered to a non-disabled MenuItem whose key is space
(keyCode 32) synthesizes exactly one click on the event's target. -/
theorem menuItem_space_synthesizes_one_click (p : MenuItemProps) (event : KeyboardEvent)
    (hd : p.disabled.getD false = false) (hk : event.keyCode = 32) :
    (menuItemOnKeyDownSpec p event).count .targetClick = 1 := by
  simp [menuItemOnKeyDownSpec, hd, hk]
  by_cases hcb : p.onKeydown <;> simp [hcb, List.count_cons]

/-- Witness for C6: a space keydown on an enabled item with an owner keydown
callback clicks the target exactly once. -/
theorem menuItem_space_synthesizes_one_click_witness :
    (menuItemOnKeyDownSpec { onKeydown := true } { keyCode := 32 }).count .targetClick = 1 :=
  menuItem_space_synthesizes_one_click { onKeydown := true } { keyCode := 32 } rfl rfl

/-- The `type` values a MenuItem accepts in the revision with typed items. -/
inductive MenuItemType
  | item
  | checkbox
  | radio
deriving DecidableEq, Repr

/-- Modelled from the spec: the `type` property and its ARIA-role mapping
belong to the later `MenuItem` revision that is not under `src/`; only its
unit tests are (`tests/unit/MenuItem.ts`, test "type").  Spec section 3:
"`type: enum {item, checkbox, radio}` — maps to ARIA role (`menuitem`,
`menuitemcheckbox`, `menuitemradio`)"; section 4.1: unknown/unset `type`
values fall back to the default `menuitem` role. -/
def itemTypeRole (t : Option MenuItemType) : String :=
  match t with
  | some .checkbox => "menuitemcheckbox"
  | some .radio => "menuitemradio"
  | _ => "menuitem"

/-- C7: the type-to-role mapping is total and default-safe — an unset type
and type `item` yield role `menuitem`, `checkbox` yields `menuitemcheckbox`,
`radio` yields `menuitemradio`, and every `type` value yields some role. -/
theorem menuItem_type_role_total :
    itemTypeRole none = "menuitem" ∧
    itemTypeRole (some .item) = "menuitem" ∧
    itemTypeRole (some .checkbox) = "menuitemcheckbox" ∧
    itemTypeRole (some .radio) = "menuitemradio" ∧
    ∀ t : Option MenuItemType,
      itemTypeRole t = "menuitem" ∨ itemTypeRole t = "menuitemcheckbox" ∨
      itemTypeRole t = "menuitemradio" := by
  refine ⟨rfl, rfl, rfl, rfl, ?_⟩
  intro t
  rcases t with _ | t
  · exact Or.inl rfl
  · cases t
    · exact Or.inl rfl
    · exact Or.inr (Or.inl rfl)
    · exact Or.inr (Or.inr rfl)

/-- A value stored in a rendered virtual-DOM property map. -/
inductive AttrValue
  | str (s : String)
  | num (n : Int)
  | classSet (cs : List String)
  | clickHandler
  | keydownHandler
  | undef
deriving DecidableEq, Repr

/-- JS `String(x)` on an optional boolean: `String(undefined)` is
`"undefined"`. -/
def jsBoolString : Option Bool → String
  | none => "undefined"
  | some true => "true"
  | some false => "false"

/-- The style-class set `MenuItem.render` computes (`MenuItem.ts` lines
74-79): `menuLabel` or `menuItem` by `hasMenu`, plus `disabled`, `selected`
and `active` flags. -/
def menuItemClasses (p : MenuItemProps) : List String :=
  [ if p.hasMenu.getD false then "menuLabel" else "menuItem" ] ++
  (if p.disabled.getD false then ["disabled"] else []) ++
  (if p.selected.getD false then ["selected"] else []) ++
  (if p.active.getD false then ["active"] else [])

/-- The object literal `MenuItem.render` passes as the last `assign` source
(`MenuItem.ts` lines 81-91), in source order: the ARIA attributes, classes,
the click and keydown bindings, the role and the tab index (forced to -1 when
disabled, defaulting to 0). -/
def menuItemStaticProps (p : MenuItemProps) : List (String × AttrValue) :=
  [ ("aria-controls", match p.controls with | some c => .str c | none => .undef),
    ("aria-expanded", .str (jsBoolString p.expanded)),
    ("aria-haspopup", if p.hasPopup.getD false then .str "true" else .undef),
    ("aria-disabled", .str (jsBoolString p.disabled)),
    ("classes", .classSet (menuItemClasses p)),
    ("onclick", .clickHandler),
    ("onkeydown", .keydownHandler),
    ("role", .str "menuitem"),
    ("tabIndex", .num (if p.disabled.getD false then -1 else p.tabIndex.getD 0)) ]

/-- The keys the static object of `MenuItem.render` always carries. -/
def menuItemStaticKeys : List String :=
  [ "aria-controls", "aria-expanded", "aria-haspopup", "aria-disabled",
    "classes", "onclick", "onkeydown", "role", "tabIndex" ]

/-- An object built by `assign(Object.create(null), source1, source2, ...)`:
own keys of later sources override earlier ones.  The object is the
concatenation of the sources' entry lists; lookup takes the last entry for a
key. -/
def objectAssign (sources : List (List (String × AttrValue))) :
    List (String × AttrValue) :=
  sources.foldl (fun acc src => acc ++ src) []

/-- Property lookup with assign semantics: the value of the last entry
carrying the key, if any. -/
def lookupProp (obj : List (String × AttrValue)) (k : String) : Option AttrValue :=
  (obj.reverse.find? fun kv => kv.1 == k).map Prod.snd

/-- The property map of the vnode `MenuItem.render` produces:
`assign(Object.create(null), properties, { ...static... })`
(`MenuItem.ts` line 81), with `user` the caller-supplied `properties` map. -/
def menuItemVnodeProps (p : MenuItemProps) (user : List (String × AttrValue)) :
    List (String × AttrValue) :=
  objectAssign [user, menuItemStaticProps p]

/-- Helper: lookup across an append prefers the later list. -/
lemma lookupProp_append (a b : List (String × AttrValue)) (k : String) :
    lookupProp (a ++ b) k = (lookupProp b k).or (lookupProp a k) := by
  unfold lookupProp
  rw [List.reverse_append, List.find?_append]
  cases List.find? (fun kv => kv.1 == k) b.reverse <;> simp

/-- Helper: a key absent from an object's key list finds nothing. -/
lemma lookupProp_eq_none (obj : List (String × AttrValue)) (k : String)
    (h : k ∉ obj.map Prod.fst) : lookupProp obj k = none := by
  unfold lookupProp
  cases hfind : obj.reverse.find? fun kv => kv.1 == k with
  | none => rfl
  | some kv =>
    exfalso
    have hmem : kv ∈ obj := List.mem_reverse.mp (List.mem_of_find?_eq_some hfind)
    have hkey : kv.1 = k := by
      have := List.find?_some hfind
      simpa using this
    exact h (hkey ▸ List.mem_map_of_mem Prod.fst hmem)

/-- Helper: a key present in an object's key list finds a value. -/
lemma lookupProp_isSome_of_mem (obj : List (String × AttrValue)) (k : String)
    (h : k ∈ obj.map Prod.fst) : (lookupProp obj k).isSome := by
  unfold lookupProp
  cases hfind : obj.reverse.find? fun kv => kv.1 == k with
  | some kv => simp [hfind]
  | none =>
    exfalso
    obtain ⟨kv, hkv, hfst⟩ := List.mem_map.mp h
    have := List.find?_eq_none.mp hfind kv (List.mem_reverse.mpr hkv)
    simp [hfst] at this

/-- Helper: the static object's keys are exactly `menuItemStaticKeys`. -/
lemma menuItemStaticProps_keys (p : MenuItemProps) :
    (menuItemStaticProps p).map Prod.fst = menuItemStaticKeys := rfl

/-- C10: in the vnode property map `MenuItem.render` builds, every key of the
static object (`aria-controls`, `aria-expanded`, `aria-haspopup`,
`aria-disabled`, `classes`, the click/keydown bindings, `role`, `tabIndex`)
resolves to the value computed from the typed MenuItem properties — whatever
the user-supplied `properties` map contains — while every other key passes
through from the user map unchanged. -/
theorem menuItem_props_override (p : MenuItemProps)
    (user : List (String × AttrValue)) (k : String) :
    (k ∈ menuItemStaticKeys →
      lookupProp (menuItemVnodeProps p user) k = lookupProp (menuItemStaticProps p) k) ∧
    (k ∉ menuItemStaticKeys →
      lookupProp (menuItemVnodeProps p user) k = lookupProp user k) := by
  have hassign : menuItemVnodeProps p user = user ++ menuItemStaticProps p := by
    simp [menuItemVnodeProps, objectAssign]
  constructor
  · intro hk
    rw [hassign, lookupProp_append]
    have hs : (lookupProp (menuItemStaticProps p) k).isSome :=
      lookupProp_isSome_of_mem _ _ (by rw [menuItemStaticProps_keys]; exact hk)
    obtain ⟨v, hv⟩ := Option.isSome_iff_exists.mp hs
    rw [hv]
    rfl
  · intro hk
    rw [hassign, lookupProp_append,
      lookupProp_eq_none (menuItemStaticProps p) k (by rw [menuItemStaticProps_keys]; exact hk)]
    rfl

/-- Witness for C10 (mirrors the unit tests "does not override static
properties" and "applies properties to the vnode"): a user-supplied
`aria-controls` is overridden by the value derived from `controls`, while a
user-supplied `data-custom` entry passes through. -/
theorem menuItem_props_override_witness :
    lookupProp (menuItemVnodeProps { controls := some "controls-base" }
        [ ("aria-controls", .str "controls-custom"),
          ("data-custom", .str "12345") ]) "aria-controls" =
      some (.str "controls-base") ∧
    lookupProp (menuItemVnodeProps { controls := some "controls-base" }
        [ ("aria-controls", .str "controls-custom"),
          ("data-custom", .str "12345") ]) "data-custom" =
      some (.str "12345") := by
  constructor
  · rw [(menuItem_props_override { controls := some "controls-base" }
      [ ("aria-controls", .str "controls-custom"),
        ("data-custom", .str "12345") ] "aria-controls").1 (by decide)]
    decide
  · rw [(menuItem_props_override { controls := some "controls-base" }
      [ ("aria-controls", .str "controls-custom"),
        ("data-custom", .str "12345") ] "data-custom").2 (by decide)]
    decide

end Widgets
